import Mathlib

/-!
# Verification of the shopping-assistant chat front-end (src/src/webllm.ts)

This file gives a shallow embedding of the coordination logic of the
`ChatUI` class: the promise-chain task queue (`pushTask`), the generate
task body (`asyncGenerate`), the reset task (`resetChatHistory`), the
device-capability probe inside `initChatUI`, and the message-log
operations (`appendMessage`, `updateLastMessage`, the per-tag clearing in
`resetChatHistory`).

Modelling conventions:
* DOM nodes carrying chat messages are modelled as a list of
  `LogEntry` values (kind tag plus raw text); the markdown/sanitize
  rendering pipeline is an external collaborator and is not re-modelled,
  so the stored text stands for the rendered content.
* The external inference engine is an oracle: one run of the streaming
  completion is summarised by a `GenOutcome` — either a successful stream
  (its chunk deltas, optional usage statistics rendered as a label
  string, and the final message re-fetched via `getMessage`), or a
  failure (the chunk deltas delivered before the throw, and the error
  text).  Engine calls that only talk to the engine
  (`resetChat`, `interruptGenerate`, `unload`) do not change the UI
  state modelled here beyond the fields the source code itself mutates.
* JavaScript promises settle with one of two outcomes; a task chained
  with `p.then(task)` runs exactly when `p` fulfils, and the chained
  promise rejects without running `task` when `p` rejects.  The chain
  built by repeated `pushTask` calls is therefore run by folding that
  rule over the task list, recording a trace of start/settle events.
  Task bodies are modelled as atomic state transformers: the chain
  admits no interleaving between its own tasks, so the internal
  suspension points of a body are invisible to the properties proved
  here.
-/

namespace WebLLMChat

/-- One displayed message block: its kind tag (`primary`, `secondary`,
`warning`, `error`, `danger`, `info`) and its text content. -/
structure LogEntry where
  kind : String
  text : String
  deriving DecidableEq, Repr

/-- Role of a chat-history turn; the source only ever pushes `user` and
`assistant` turns into `chatHistory`. -/
inductive Role where
  | user
  | assistant
  deriving DecidableEq, Repr

/-- One `webllm.ChatCompletionMessageParam` as used by the source:
a role/content pair. -/
structure ChatTurn where
  role : Role
  content : String
  deriving DecidableEq, Repr

/-- The mutable state of the `ChatUI` instance that the claims are
about: the `requestInProgress` and `chatLoaded` flags, the
`chatHistory` sliding window, the visible message log, the text of the
chat input field, its placeholder attribute, and the token-statistics
info label. -/
structure AppState where
  requestInProgress : Bool
  chatLoaded : Bool
  chatHistory : List ChatTurn
  messageLog : List LogEntry
  inputValue : String
  placeholder : String
  infoLabel : String
  deriving DecidableEq, Repr

/-- `appendMessage(kind, text)`: renders `text` and adds a new tagged
block at the end of the visible log (lines 255-269 of webllm.ts). -/
def appendMessage (kind text : String) (st : AppState) : AppState :=
  { st with messageLog := st.messageLog ++ [⟨kind, text⟩] }

/-- `updateLastMessage(kind, text, keepText)` (lines 296-315): locate the
most recent log entry of the given kind and replace its text (or append
to it when `keepText` is set).  The source throws when no entry of the
kind exists; in every run modelled below a matching entry is always
present, and the function is totalised as the identity in that
unreachable case. -/
def updateLastOfKind (kind text : String) (keepText : Bool) : List LogEntry → List LogEntry
  | [] => []
  | e :: rest =>
    if rest.any (fun x => x.kind == kind) then
      e :: updateLastOfKind kind text keepText rest
    else if e.kind == kind then
      { e with text := if keepText then e.text ++ text else text } :: rest
    else
      e :: rest

/-- The kinds cleared by `resetChatHistory` (line 319). -/
def clearTags : List String :=
  ["primary", "secondary", "warning", "error", "danger", "info"]

/-- `resetChatHistory()` (lines 317-331): empty the chat history, remove
every displayed message whose kind is in `clearTags`, clear the info
label, and append a fresh ready message. -/
def resetChatHistory (st : AppState) : AppState :=
  let st1 := { st with chatHistory := ([] : List ChatTurn) }
  let st2 := { st1 with
    messageLog := st1.messageLog.filter (fun e => !(clearTags.contains e.kind)) }
  let st3 := { st2 with infoLabel := "" }
  appendMessage "info" "Chat assistant is ready" st3

/-- `unloadEngine()` (lines 245-252): unload the engine, clear
`chatLoaded`, and report.  The progress-bar and button attribute
changes are pure DOM styling and are not part of the modelled state. -/
def unloadEngine (st : AppState) : AppState :=
  let st1 := { st with chatLoaded := false }
  appendMessage "info" "Engine unloaded. You can download models again and retry." st1

/-- Summary of one run of the engine's streaming completion, as observed
by `asyncGenerate`:
* `ok chunks usage finalMessage` — the stream delivered the given
  content deltas, `usage` is the rendered token-statistics label when
  usage data was received, and `getMessage` returned `finalMessage`;
* `error chunks err` — the deltas delivered before some engine call
  threw, and the stringified error. -/
inductive GenOutcome where
  | ok (chunks : List String) (usage : Option String) (finalMessage : String)
  | error (chunks : List String) (err : String)
  deriving DecidableEq, Repr

/-- The `for await` loop of `asyncGenerate` (lines 373-382): each chunk
appends its delta to the accumulated message and rewrites the last
`secondary` entry with the accumulated text. -/
def streamLog : String → List String → List LogEntry → List LogEntry
  | _, [], log => log
  | cur, c :: cs, log =>
    streamLog (cur ++ c) cs (updateLastOfKind "secondary" (cur ++ c) false log)

/-- `maxMessages` (line 352): the sliding-window bound. -/
def maxMessages : Nat := 4

/-- `Array.prototype.slice(-n)`: the last `n` elements. -/
def sliceLast (n : Nat) (l : List ChatTurn) : List ChatTurn :=
  l.drop (l.length - n)

/-- The sliding-window truncation of lines 353-355: when the history
exceeds `maxMessages`, keep only its last `maxMessages` turns. -/
def truncWindow (l : List ChatTurn) : List ChatTurn :=
  if l.length > maxMessages then sliceLast maxMessages l else l

/-- `asyncGenerate()` (lines 336-400), the generate task body, with the
engine run summarised by `gen`.  Mirrors the source order: set
`requestInProgress`; bail out on an empty prompt; append the user
message to the log and to `chatHistory`; truncate the history to the
window; run the stream; on success rewrite the last secondary entry
with the final message and append the assistant turn; on error append a
danger message and unload the engine; finally restore the placeholder
and clear `requestInProgress`. -/
def asyncGenerate (gen : GenOutcome) (st : AppState) : AppState :=
  let st0 := { st with requestInProgress := true }
  let prompt := st0.inputValue
  if prompt == "" then
    { st0 with requestInProgress := false }
  else
    let st1 := appendMessage "primary" prompt st0
    let st2 := { st1 with inputValue := "", placeholder := "Generating..." }
    let st3 := appendMessage "secondary" "... thinking ..." st2
    let st4 := { st3 with chatHistory := st3.chatHistory ++ [(⟨Role.user, prompt⟩ : ChatTurn)] }
    let st5 := { st4 with chatHistory := truncWindow st4.chatHistory }
    let st6 :=
      match gen with
      | GenOutcome.ok chunks usage finalMessage =>
        let sa := { st5 with messageLog := streamLog "" chunks st5.messageLog }
        let sb :=
          match usage with
          | some u => { sa with infoLabel := u }
          | none => sa
        let sc := { sb with
          messageLog := updateLastOfKind "secondary" finalMessage false sb.messageLog }
        { sc with chatHistory := sc.chatHistory ++ [(⟨Role.assistant, finalMessage⟩ : ChatTurn)] }
      | GenOutcome.error chunks err =>
        let sa := { st5 with messageLog := streamLog "" chunks st5.messageLog }
        let sb := appendMessage "danger" ("Generate error, " ++ err) sa
        unloadEngine sb
    { st6 with placeholder := "Type a message...", requestInProgress := false }

/-! ## The promise-chain task queue (`pushTask`, lines 214-217) -/

/-- Settled state of a JavaScript promise. -/
inductive Outcome where
  | fulfilled
  | rejected
  deriving DecidableEq, Repr

/-- Events observable while the chain runs: task `i` begins executing,
or task `i`'s promise settles with the given outcome. -/
inductive Ev where
  | start (i : Nat)
  | settle (i : Nat) (o : Outcome)
  deriving DecidableEq, Repr

/-- A task body handed to `pushTask`: it transforms the state and its
promise settles with an outcome. -/
def ChainTask (σ : Type) := σ → σ × Outcome

/-- Run the suffix of the chain from task index `i` onward, given the
settled outcome `c` of the predecessor promise.  `p.then(task)` runs
`task` only when `p` fulfilled; when `p` rejected, the task is skipped
and the rejection propagates to the chained promise.  Returns the final
state, the settled outcome of the chain's tail promise, and the event
trace. -/
def runChainFrom {σ : Type} : Nat → Outcome → List (ChainTask σ) → σ → σ × Outcome × List Ev
  | _, c, [], s => (s, c, [])
  | i, Outcome.rejected, _ :: ts, s => runChainFrom (i + 1) Outcome.rejected ts s
  | i, Outcome.fulfilled, t :: ts, s =>
    let r := t s
    let rest := runChainFrom (i + 1) r.2 ts r.1
    (rest.1, rest.2.1, Ev.start i :: Ev.settle i r.2 :: rest.2.2)

/-- The chain built by calling `pushTask` once per element of `tasks`,
starting from the initially resolved `chatRequestChain`
(`Promise.resolve()`, line 45), then run to quiescence. -/
def runChain {σ : Type} (tasks : List (ChainTask σ)) (s : σ) : σ × Outcome × List Ev :=
  runChainFrom 0 Outcome.fulfilled tasks s

/-- The event trace of a chain run. -/
def chainTrace {σ : Type} (tasks : List (ChainTask σ)) (s : σ) : List Ev :=
  (runChain tasks s).2.2

/-- The task enqueued by `onGenerate` (lines 228-230). -/
def genTask (gen : GenOutcome) : ChainTask AppState :=
  fun s => (asyncGenerate gen s, Outcome.fulfilled)

/-- The task enqueued by `onReset` (lines 239-242): `engine.resetChat`
talks only to the engine, then `resetChatHistory` updates the modelled
state. -/
def resetTask : ChainTask AppState :=
  fun s => (resetChatHistory s, Outcome.fulfilled)

/-! ## Event handlers and the enqueue guard -/

/-- A queued user operation, for stating what `onGenerate` adds to the
task queue. -/
inductive UserTask where
  | generate
  | reset
  deriving DecidableEq, Repr

/-- `onGenerate()` (lines 224-231): when `requestInProgress` is set,
return immediately; otherwise enqueue the generate task. -/
def onGenerate (st : AppState) (queue : List UserTask) : AppState × List UserTask :=
  if st.requestInProgress then (st, queue)
  else (st, queue ++ [UserTask.generate])

/-! ## The device-capability probe inside `initChatUI` (lines 163-198) -/

/-- `androidMaxStorageBufferBindingSize = 1 << 27` (line 167). -/
def androidMaxStorageBufferBindingSize : Nat := 2 ^ 27

/-- `mobileVendors` (line 168). -/
def mobileVendors : List String := ["qualcomm", "arm"]

/-- The restriction condition of lines 181-184. -/
def restrictDecision (size : Nat) (vendor : String) : Bool :=
  (vendor.length != 0 && mobileVendors.contains vendor)
    || decide (size ≤ androidMaxStorageBufferBindingSize)

/-- Result of the probe-to-ready tail of `initChatUI`: the final value
of the local `restrictModels` flag, the message log, and the two
session flags set on the success path. -/
structure InitResult where
  restrictModels : Bool
  messageLog : List LogEntry
  requestInProgress : Bool
  chatLoaded : Bool
  deriving DecidableEq, Repr

/-- Lines 167-198 of `initChatUI`, entered with the given message log:
the probe either yields a buffer-binding size and vendor string, or
throws (leaving the defaults `0` and `""` and appending a danger
message); the restriction condition is then evaluated, the ready
messages are written, and the session flags are set.  The `probe`
argument is the joint result of `getMaxStorageBufferBindingSize` and
`getGPUVendor`. -/
def probeAndFinishLoading (probe : Except String (Nat × String))
    (log : List LogEntry) : InitResult :=
  let size := match probe with | Except.ok p => p.1 | Except.error _ => 0
  let vendor := match probe with | Except.ok p => p.2 | Except.error _ => ""
  let log1 :=
    match probe with
    | Except.ok _ => log
    | Except.error e => log ++ [⟨"danger", "Error reading GPU-vendor " ++ e⟩]
  let restrictModels := restrictDecision size vendor
  let log2 :=
    if restrictModels then
      updateLastOfKind "info"
        "Your device seems to have limited resources, so we restrict the selectable models."
        true log1
    else log1
  let log3 := updateLastOfKind "info" "\n\nChat assistant is ready" true log2
  let log4 :=
    updateLastOfKind "warning" "\n\nAll models loaded and engine initialized." true log3
  { restrictModels := restrictModels
    messageLog := log4
    requestInProgress := false
    chatLoaded := true }

/-! ## Auxiliary definitions used in statements and witnesses -/

/-- The task index an event belongs to. -/
def Ev.idx : Ev → Nat
  | Ev.start i => i
  | Ev.settle i _ => i

/-- The turns `asyncGenerate` appends for a given engine outcome and
prompt: nothing on an empty prompt; the user turn, plus the assistant
turn when the stream succeeds, otherwise. -/
def appendedTurns (gen : GenOutcome) (prompt : String) : List ChatTurn :=
  if prompt == "" then []
  else
    ⟨Role.user, prompt⟩ ::
      (match gen with
       | GenOutcome.ok _ _ f => [(⟨Role.assistant, f⟩ : ChatTurn)]
       | GenOutcome.error _ _ => [])

/-- A ready session with a pending prompt in the input field. -/
def readyState : AppState :=
  { requestInProgress := false
    chatLoaded := true
    chatHistory := []
    messageLog := [⟨"info", "Chat assistant is ready"⟩]
    inputValue := "hi"
    placeholder := ""
    infoLabel := "" }

/-- A session with a generation-or-reset task outstanding. -/
def busyState : AppState :=
  { readyState with requestInProgress := true }

/-- A ready session whose input field is empty. -/
def emptyInputState : AppState :=
  { readyState with inputValue := "" }

/-- Put a new prompt into the input field (the user typing between
submissions). -/
def withInput (v : String) (st : AppState) : AppState :=
  { st with inputValue := v }

/-- A one-chunk successful engine run answering with the text r. -/
def genR : GenOutcome := GenOutcome.ok ["r"] none "r"

/-! ## Lemmas about the promise chain -/

/-- Once the chain's tail promise is rejected, no further task produces
any event: the rejection propagates silently through every remaining
`then`. -/
lemma runChainFrom_rejected_trace {σ : Type} (ts : List (ChainTask σ)) :
    ∀ (i : Nat) (s : σ), (runChainFrom i Outcome.rejected ts s).2.2 = [] := by
  induction ts with
  | nil => intro i s; rfl
  | cons t ts ih => intro i s; simpa [runChainFrom] using ih (i + 1) s

/-- Every event emitted by the chain suffix starting at index `i` belongs
to a task of index at least `i`. -/
lemma runChainFrom_idx_ge {σ : Type} (ts : List (ChainTask σ)) :
    ∀ (i : Nat) (c : Outcome) (s : σ) (e : Ev),
      e ∈ (runChainFrom i c ts s).2.2 → i ≤ e.idx := by
  induction ts with
  | nil => intro i c s e h; simp [runChainFrom] at h
  | cons t ts ih =>
    intro i c s e h
    cases c with
    | rejected =>
      rw [runChainFrom_rejected_trace] at h
      simp at h
    | fulfilled =>
      simp only [runChainFrom, List.mem_cons] at h
      rcases h with h | h | h
      · subst h; simp [Ev.idx]
      · subst h; simp [Ev.idx]
      · have := ih (i + 1) _ _ e h
        omega

/-- In a chain run, any `start` event of task `i + 1` is preceded (at a
strictly smaller trace position) by the `settle` event of task `i`. -/
lemma settle_before_start_from {σ : Type} (ts : List (ChainTask σ)) :
    ∀ (i₀ : Nat) (s : σ) (i n : Nat), i₀ ≤ i →
      ((runChainFrom i₀ Outcome.fulfilled ts s).2.2).get? n = some (Ev.start (i + 1)) →
      ∃ m, m < n ∧
        ∃ o, ((runChainFrom i₀ Outcome.fulfilled ts s).2.2).get? m = some (Ev.settle i o) := by
  induction ts with
  | nil => intro i₀ s i n _ h; simp [runChainFrom] at h
  | cons t ts ih =>
    intro i₀ s i n hle h
    have htr : (runChainFrom i₀ Outcome.fulfilled (t :: ts) s).2.2
        = Ev.start i₀ :: Ev.settle i₀ (t s).2
            :: (runChainFrom (i₀ + 1) (t s).2 ts (t s).1).2.2 := rfl
    rw [htr] at h ⊢
    rcases n with _ | _ | n
    · simp at h
      omega
    · simp at h
    · simp only [List.get?] at h
      by_cases hi : i = i₀
      · subst hi
        exact ⟨1, by omega, (t s).2, rfl⟩
      · cases ho : (t s).2 with
        | rejected =>
          rw [ho, runChainFrom_rejected_trace] at h
          simp at h
        | fulfilled =>
          rw [ho] at h
          obtain ⟨m, hm, o, hmo⟩ := ih (i₀ + 1) (t s).1 i n (by omega) h
          refine ⟨m + 2, by omega, o, ?_⟩
          simpa [ho] using hmo

/-- Once some task's promise rejects, no later task ever starts. -/
lemma reject_blocks_from {σ : Type} (ts : List (ChainTask σ)) :
    ∀ (i₀ : Nat) (s : σ) (i j : Nat),
      Ev.settle j Outcome.rejected ∈ (runChainFrom i₀ Outcome.fulfilled ts s).2.2 →
      j < i →
      Ev.start i ∉ (runChainFrom i₀ Outcome.fulfilled ts s).2.2 := by
  induction ts with
  | nil => intro i₀ s i j h _; simp [runChainFrom] at h
  | cons t ts ih =>
    intro i₀ s i j hmem hji
    have htr : (runChainFrom i₀ Outcome.fulfilled (t :: ts) s).2.2
        = Ev.start i₀ :: Ev.settle i₀ (t s).2
            :: (runChainFrom (i₀ + 1) (t s).2 ts (t s).1).2.2 := rfl
    rw [htr] at hmem ⊢
    simp only [List.mem_cons] at hmem
    rcases hmem with h1 | h1 | h1
    · exact absurd h1 (by simp)
    · have hj : j = i₀ := by
        injection h1
      have ho : (t s).2 = Outcome.rejected := by
        injection h1 with h1a h1b
        exact h1b.symm
      intro hstart
      rcases List.mem_cons.mp hstart with h2 | h2
      · have : i = i₀ := by injection h2
        omega
      · rcases List.mem_cons.mp h2 with h3 | h3
        · exact absurd h3 (by simp)
        · rw [ho, runChainFrom_rejected_trace] at h3
          simp at h3
    · cases ho : (t s).2 with
      | rejected =>
        rw [ho, runChainFrom_rejected_trace] at h1
        simp at h1
      | fulfilled =>
        rw [ho] at h1
        have hj : i₀ + 1 ≤ j := by
          simpa [Ev.idx] using runChainFrom_idx_ge ts (i₀ + 1) Outcome.fulfilled (t s).1
            (Ev.settle j Outcome.rejected) h1
        intro hstart
        rcases List.mem_cons.mp hstart with h2 | h2
        · have : i = i₀ := by injection h2
          omega
        · rcases List.mem_cons.mp h2 with h3 | h3
          · exact absurd h3 (by simp)
          · exact ih (i₀ + 1) (t s).1 i j h1 hji h3

/-! ## Claims C1 and C2: the task queue -/

/-- Claim C1 counterexample: enqueue two tasks where the first one's
promise rejects; the second task never starts, so a failing task does
prevent tasks enqueued after it from executing. -/
theorem rejected_predecessor_skips_successor_cex :
    Ev.start 1 ∉ chainTrace
      ([fun s => (s, Outcome.rejected), fun s => (s, Outcome.fulfilled)] :
        List (ChainTask Unit)) () := by
  decide

/-- Claim C1 (amended): for every sequence of tasks passed to
`pushTask`, a task enqueued after a task whose promise rejected never
runs: the rejection propagates through `then`, skipping every later
task. -/
theorem rejection_blocks_later_tasks {σ : Type} (tasks : List (ChainTask σ)) (s : σ)
    (i j : Nat) (h1 : Ev.settle j Outcome.rejected ∈ chainTrace tasks s) (h2 : j < i) :
    Ev.start i ∉ chainTrace tasks s :=
  reject_blocks_from tasks 0 s i j h1 h2

/-- Witness for the amended claim C1 at a concrete two-task chain. -/
theorem rejection_blocks_later_tasks_witness :
    (Ev.settle 0 Outcome.rejected ∈ chainTrace
        ([fun s => (s, Outcome.rejected), fun s => (s, Outcome.fulfilled)] :
          List (ChainTask Unit)) ()
      ∧ (0 : Nat) < 1)
    ∧ Ev.start 1 ∉ chainTrace
        ([fun s => (s, Outcome.rejected), fun s => (s, Outcome.fulfilled)] :
          List (ChainTask Unit)) () :=
  ⟨⟨by decide, by decide⟩,
    rejection_blocks_later_tasks _ _ 1 0 (by decide) (by decide)⟩

/-- Claim C2: for every sequence of tasks passed to `pushTask`, task
`n + 1` never begins executing before task `n`'s promise has settled:
wherever the trace records the start of task `i + 1`, the settle event
of task `i` occurs at a strictly earlier position. -/
theorem task_starts_after_predecessor_settles {σ : Type} (tasks : List (ChainTask σ))
    (s : σ) (i n : Nat) (h : (chainTrace tasks s).get? n = some (Ev.start (i + 1))) :
    ∃ m, m < n ∧ ∃ o, (chainTrace tasks s).get? m = some (Ev.settle i o) :=
  settle_before_start_from tasks 0 s i n (Nat.zero_le i) h

/-- Witness for claim C2 at a concrete two-task chain. -/
theorem task_starts_after_predecessor_settles_witness :
    (chainTrace
        ([fun s => (s, Outcome.fulfilled), fun s => (s, Outcome.fulfilled)] :
          List (ChainTask Unit)) ()).get? 2 = some (Ev.start 1)
    ∧ ∃ m, m < 2 ∧ ∃ o,
        (chainTrace
          ([fun s => (s, Outcome.fulfilled), fun s => (s, Outcome.fulfilled)] :
            List (ChainTask Unit)) ()).get? m = some (Ev.settle 0 o) :=
  ⟨by decide, task_starts_after_predecessor_settles _ _ 0 2 (by decide)⟩

/-! ## Lemmas about the message log -/

/-- `updateLastMessage` leaves every entry of a different kind in
place. -/
lemma mem_updateLastOfKind {e : LogEntry} (kind text : String) (keep : Bool)
    (hne : e.kind ≠ kind) :
    ∀ {log : List LogEntry}, e ∈ log → e ∈ updateLastOfKind kind text keep log := by
  intro log
  induction log with
  | nil => simp
  | cons x rest ih =>
    intro hmem
    by_cases hany : rest.any (fun y => y.kind == kind)
    · rw [updateLastOfKind, if_pos hany]
      rcases List.mem_cons.mp hmem with h | h
      · exact List.mem_cons.mpr (Or.inl h)
      · exact List.mem_cons.mpr (Or.inr (ih h))
    · by_cases hx : x.kind == kind
      · rw [updateLastOfKind, if_neg hany, if_pos hx]
        rcases List.mem_cons.mp hmem with h | h
        · exact absurd (h ▸ (beq_iff_eq.mp hx)) hne
        · exact List.mem_cons.mpr (Or.inr h)
      · rw [updateLastOfKind, if_neg hany, if_neg hx]
        exact hmem

/-- Filtering with a predicate that rejects every entry of the updated
kind is unaffected by `updateLastMessage` on that kind. -/
lemma filter_updateLastOfKind (p : LogEntry → Bool) (kind text : String) (keep : Bool)
    (hp : ∀ t, p ⟨kind, t⟩ = false) :
    ∀ log : List LogEntry, (updateLastOfKind kind text keep log).filter p = log.filter p := by
  intro log
  induction log with
  | nil => rfl
  | cons x rest ih =>
    by_cases hany : rest.any (fun y => y.kind == kind)
    · rw [updateLastOfKind, if_pos hany, List.filter_cons, List.filter_cons, ih]
    · by_cases hx : x.kind == kind
      · obtain ⟨xk, xt⟩ := x
        have hxk : xk = kind := by simpa using hx
        subst hxk
        rw [updateLastOfKind, if_neg hany, if_pos hx, List.filter_cons, List.filter_cons]
        simp [hp]
      · rw [updateLastOfKind, if_neg hany, if_neg hx]

/-- Filtering with a predicate that rejects `secondary` entries is
unaffected by the streaming loop's log updates. -/
lemma filter_streamLog (p : LogEntry → Bool) (hp : ∀ t, p ⟨"secondary", t⟩ = false) :
    ∀ (cs : List String) (cur : String) (log : List LogEntry),
      (streamLog cur cs log).filter p = log.filter p := by
  intro cs
  induction cs with
  | nil => intro cur log; rfl
  | cons c cs ih =>
    intro cur log
    rw [streamLog, ih, filter_updateLastOfKind p "secondary" (cur ++ c) false hp]

/-! ## Claims C9 and C10: the generate task's flag discipline -/

/-- Claim C9: running the generate task with an empty prompt in the
input field is a no-op: starting idle, the state after the task equals
the state before it — no message appended, no history mutation, and
`requestInProgress` unchanged. -/
theorem empty_prompt_noop (gen : GenOutcome) (st : AppState)
    (h1 : st.inputValue = "") (h2 : st.requestInProgress = false) :
    asyncGenerate gen st = st := by
  obtain ⟨rip, cl, ch, ml, iv, ph, il⟩ := st
  simp only at h1 h2
  subst h1
  subst h2
  simp [asyncGenerate]

/-- Witness for claim C9 at a concrete idle state. -/
theorem empty_prompt_noop_witness :
    (emptyInputState.inputValue = "" ∧ emptyInputState.requestInProgress = false)
    ∧ asyncGenerate genR emptyInputState = emptyInputState :=
  ⟨⟨rfl, rfl⟩, empty_prompt_noop genR emptyInputState rfl rfl⟩

/-- Claim C10: every terminating execution of the generate task body
ends with `requestInProgress = false`, on the empty-input path, the
successful-stream path, and the generation-error path alike. -/
theorem asyncGenerate_clears_requestInProgress (gen : GenOutcome) (st : AppState) :
    (asyncGenerate gen st).requestInProgress = false := by
  by_cases h : st.inputValue == ""
  · simp [asyncGenerate, h]
  · cases gen with
    | ok chunks usage finalMessage =>
      cases usage <;> simp [asyncGenerate, h]
    | error chunks err =>
      simp [asyncGenerate, h]

/-! ## Claims C4 and C5: the device-capability probe -/

/-- Claim C4 counterexample: when the probe throws, the defaulted
buffer-binding size `0` trips the threshold test, so the
device-restriction flag ends up true, not false as claimed. -/
theorem probe_failure_restricts_models_cex :
    (probeAndFinishLoading (Except.error "boom") []).restrictModels = true := by
  decide

/-- Claim C4 (amended): if the device-capability probe throws, the
failure is non-fatal — a danger message is reported and loading runs to
completion (`chatLoaded` set, `requestInProgress` cleared) — but the
device-restriction flag becomes true, because the buffer-binding size
keeps its default `0`, which falls under the 128 MiB threshold. -/
theorem probe_failure_nonfatal (e : String) (log : List LogEntry) :
    (probeAndFinishLoading (Except.error e) log).chatLoaded = true
    ∧ (probeAndFinishLoading (Except.error e) log).requestInProgress = false
    ∧ (⟨"danger", "Error reading GPU-vendor " ++ e⟩ : LogEntry)
        ∈ (probeAndFinishLoading (Except.error e) log).messageLog
    ∧ (probeAndFinishLoading (Except.error e) log).restrictModels = true := by
  refine ⟨rfl, rfl, ?_, rfl⟩
  have h0 : (⟨"danger", "Error reading GPU-vendor " ++ e⟩ : LogEntry)
      ∈ log ++ [(⟨"danger", "Error reading GPU-vendor " ++ e⟩ : LogEntry)] := by
    simp
  have hd1 : (⟨"danger", "Error reading GPU-vendor " ++ e⟩ : LogEntry).kind ≠ "warning" := by
    simp
  have hd2 : (⟨"danger", "Error reading GPU-vendor " ++ e⟩ : LogEntry).kind ≠ "info" := by
    simp
  simp only [probeAndFinishLoading]
  refine mem_updateLastOfKind "warning" _ true hd1 ?_
  refine mem_updateLastOfKind "info" _ true hd2 ?_
  split
  · exact mem_updateLastOfKind "info" _ true hd2 h0
  · exact h0

/-- Claim C5: given a successfully probed size and vendor, the
device-restriction flag is true exactly when the buffer-binding size is
at most `2 ^ 27` bytes (boundary included) or the vendor is qualcomm or
arm. -/
theorem restrict_flag_iff (size : Nat) (vendor : String) (log : List LogEntry) :
    (probeAndFinishLoading (Except.ok (size, vendor)) log).restrictModels = true
      ↔ size ≤ 2 ^ 27 ∨ vendor = "qualcomm" ∨ vendor = "arm" := by
  have hr : (probeAndFinishLoading (Except.ok (size, vendor)) log).restrictModels
      = restrictDecision size vendor := rfl
  rw [hr]
  constructor
  · intro h
    simp only [restrictDecision, androidMaxStorageBufferBindingSize, Bool.or_eq_true,
      Bool.and_eq_true, decide_eq_true_eq] at h
    rcases h with ⟨-, hcon⟩ | hsz
    · have hmemv : vendor ∈ mobileVendors := List.mem_of_elem_eq_true hcon
      simp only [mobileVendors, List.mem_cons, List.mem_singleton] at hmemv
      rcases hmemv with h | h
      · exact Or.inr (Or.inl h)
      · simp only [List.not_mem_nil, or_false] at h
        exact Or.inr (Or.inr h)
    · exact Or.inl hsz
  · intro h
    simp only [restrictDecision, androidMaxStorageBufferBindingSize, Bool.or_eq_true,
      Bool.and_eq_true, decide_eq_true_eq]
    rcases h with hsz | hv | hv
    · exact Or.inr hsz
    · subst hv
      exact Or.inl ⟨by decide, by decide⟩
    · subst hv
      exact Or.inl ⟨by decide, by decide⟩

/-! ## Claim C6: the in-progress guard on enqueueing -/

/-- Claim C6: a generate request arriving while `requestInProgress` is
set is a silent no-op — the state is untouched and nothing is added to
the task queue. -/
theorem generate_noop_when_request_in_progress (st : AppState) (queue : List UserTask)
    (h : st.requestInProgress = true) :
    onGenerate st queue = (st, queue) := by
  simp [onGenerate, h]

/-- Witness for claim C6 at a concrete busy state. -/
theorem generate_noop_when_request_in_progress_witness :
    busyState.requestInProgress = true ∧ onGenerate busyState [] = (busyState, []) :=
  ⟨rfl, generate_noop_when_request_in_progress busyState [] rfl⟩

/-! ## Claim C3: the sliding chat history -/

/-- The window truncation never leaves more than 4 turns. -/
lemma truncWindow_length_le (l : List ChatTurn) : (truncWindow l).length ≤ 4 := by
  rw [truncWindow]
  split
  · next h =>
    simp only [sliceLast, List.length_drop, maxMessages]
    omega
  · next h =>
    simp only [maxMessages] at h
    omega

/-- The window truncation keeps a suffix of the history. -/
lemma truncWindow_suffix (l : List ChatTurn) : truncWindow l <:+ l := by
  rw [truncWindow]
  split
  · exact List.drop_suffix _ _
  · exact List.suffix_refl _

/-- How the generate task transforms the chat history on a successful
stream and a non-empty prompt: user turn appended, window truncation
applied, assistant turn appended after the truncation. -/
lemma asyncGenerate_chatHistory_ok (chunks : List String) (usage : Option String)
    (f : String) (s : AppState) (h0 : (s.inputValue == "") = false) :
    (asyncGenerate (GenOutcome.ok chunks usage f) s).chatHistory
      = truncWindow (s.chatHistory ++ [(⟨Role.user, s.inputValue⟩ : ChatTurn)])
          ++ [(⟨Role.assistant, f⟩ : ChatTurn)] := by
  cases usage <;> simp [asyncGenerate, appendMessage, h0]

/-- How the generate task transforms the chat history on a failing
stream and a non-empty prompt: user turn appended and window truncation
applied; no assistant turn. -/
lemma asyncGenerate_chatHistory_error (chunks : List String) (err : String)
    (s : AppState) (h0 : (s.inputValue == "") = false) :
    (asyncGenerate (GenOutcome.error chunks err) s).chatHistory
      = truncWindow (s.chatHistory ++ [(⟨Role.user, s.inputValue⟩ : ChatTurn)]) := by
  simp [asyncGenerate, appendMessage, unloadEngine, h0]

/-- Claim C3 counterexample: starting from an empty history, three
successful generates leave `chatHistory` at length 5, because the
window truncation runs before the assistant turn of the same exchange
is appended.  So the history is not always at most 4 after a generate
completes. -/
theorem chatHistory_window_cex :
    ¬ ((asyncGenerate genR
          (withInput "c" (asyncGenerate genR
            (withInput "b" (asyncGenerate genR
              (withInput "a" readyState)))))).chatHistory.length ≤ 4) := by
  decide

/-- Claim C3 (amended): after every generate completes, `chatHistory`
has length at most 5 — at most 4 turns survive the window truncation,
and the assistant turn of the current exchange is appended after the
truncation — and the retained turns are exactly the most recent ones in
original order: the history is a suffix of the previous history
followed by the newly appended turns. -/
theorem chatHistory_bounded_and_suffix (gen : GenOutcome) (s : AppState)
    (h : s.chatHistory.length ≤ 5) :
    (asyncGenerate gen s).chatHistory.length ≤ 5 ∧
    (asyncGenerate gen s).chatHistory <:+ s.chatHistory ++ appendedTurns gen s.inputValue := by
  by_cases h0 : s.inputValue == ""
  · have hhist : (asyncGenerate gen s).chatHistory = s.chatHistory := by
      simp [asyncGenerate, h0]
    rw [hhist]
    refine ⟨h, ?_⟩
    simp [appendedTurns, h0]
  · have h0f : (s.inputValue == "") = false := by
      simpa using h0
    have hsuf := truncWindow_suffix (s.chatHistory ++ [(⟨Role.user, s.inputValue⟩ : ChatTurn)])
    have hlen := truncWindow_length_le (s.chatHistory ++ [(⟨Role.user, s.inputValue⟩ : ChatTurn)])
    cases gen with
    | ok chunks usage f =>
      rw [asyncGenerate_chatHistory_ok chunks usage f s h0f]
      constructor
      · rw [List.length_append]
        simp only [List.length_singleton]
        omega
      · simp only [appendedTurns, h0f, Bool.false_eq_true, if_false]
        obtain ⟨t, ht⟩ := hsuf
        refine ⟨t, ?_⟩
        rw [← List.append_assoc, ht]
        simp
    | error chunks err =>
      rw [asyncGenerate_chatHistory_error chunks err s h0f]
      constructor
      · omega
      · simp only [appendedTurns, h0f, Bool.false_eq_true, if_false]
        obtain ⟨t, ht⟩ := hsuf
        exact ⟨t, ht⟩

/-- Witness for the amended claim C3 at a concrete ready state. -/
theorem chatHistory_bounded_and_suffix_witness :
    readyState.chatHistory.length ≤ 5 ∧
    ((asyncGenerate genR readyState).chatHistory.length ≤ 5 ∧
      (asyncGenerate genR readyState).chatHistory
        <:+ readyState.chatHistory ++ appendedTurns genR readyState.inputValue) :=
  ⟨by decide, chatHistory_bounded_and_suffix genR readyState (by decide)⟩

/-! ## Claim C8: the generation-error policy -/

/-- Claim C8: if the engine run fails, the generate task appends a
danger message carrying the error text, immediately followed by the
unload notice, and unloads the engine — `chatLoaded` is forced to
false, so a reload is required before the next generation. -/
theorem generation_error_unloads_engine (chunks : List String) (err : String)
    (s : AppState) (h : s.inputValue ≠ "") :
    (asyncGenerate (GenOutcome.error chunks err) s).chatLoaded = false
    ∧ (asyncGenerate (GenOutcome.error chunks err) s).requestInProgress = false
    ∧ ∃ pre : List LogEntry,
        (asyncGenerate (GenOutcome.error chunks err) s).messageLog
          = pre ++ [⟨"danger", "Generate error, " ++ err⟩,
              ⟨"info", "Engine unloaded. You can download models again and retry."⟩] := by
  have h0 : (s.inputValue == "") = false := by simpa using h
  refine ⟨?_, ?_, ?_⟩
  · simp [asyncGenerate, h0, unloadEngine, appendMessage]
  · simp [asyncGenerate, h0, unloadEngine, appendMessage]
  · refine ⟨streamLog "" chunks (s.messageLog
      ++ [⟨"primary", s.inputValue⟩, ⟨"secondary", "... thinking ..."⟩]), ?_⟩
    simp [asyncGenerate, h0, unloadEngine, appendMessage]

/-! ## Claim C7: reset issued while a generation is in progress -/

/-- How the generate task transforms the message log on a successful
stream and a non-empty prompt. -/
lemma asyncGenerate_messageLog_ok (chunks : List String) (usage : Option String)
    (f : String) (s : AppState) (h0 : (s.inputValue == "") = false) :
    (asyncGenerate (GenOutcome.ok chunks usage f) s).messageLog
      = updateLastOfKind "secondary" f false
          (streamLog "" chunks
            (s.messageLog
              ++ [⟨"primary", s.inputValue⟩, ⟨"secondary", "... thinking ..."⟩])) := by
  cases usage <;> simp [asyncGenerate, appendMessage, h0]

/-- Claim C7: when a generation task and then a reset task occupy the
queue, the chain runs the reset strictly after the generation — the
final state is the reset applied to the generation's result — the
in-flight generation still appends its assistant turn (the last history
entry after the generation task is the assistant turn), and after both
tasks settle the chat history is empty and the log ends in a fresh
ready info entry on an otherwise cleared log. -/
theorem reset_after_generation (chunks : List String) (usage : Option String)
    (f : String) (s : AppState) (h : s.inputValue ≠ "") :
    (runChain [genTask (GenOutcome.ok chunks usage f), resetTask] s).1
        = resetChatHistory (asyncGenerate (GenOutcome.ok chunks usage f) s)
    ∧ (asyncGenerate (GenOutcome.ok chunks usage f) s).chatHistory.getLast?
        = some ⟨Role.assistant, f⟩
    ∧ ((runChain [genTask (GenOutcome.ok chunks usage f), resetTask] s).1).chatHistory = []
    ∧ ((runChain [genTask (GenOutcome.ok chunks usage f), resetTask] s).1).messageLog
        = s.messageLog.filter (fun e => !(clearTags.contains e.kind))
            ++ [⟨"info", "Chat assistant is ready"⟩] := by
  have h0 : (s.inputValue == "") = false := by simpa using h
  have hchain : (runChain [genTask (GenOutcome.ok chunks usage f), resetTask] s).1
      = resetChatHistory (asyncGenerate (GenOutcome.ok chunks usage f) s) := rfl
  refine ⟨hchain, ?_, ?_, ?_⟩
  · rw [asyncGenerate_chatHistory_ok chunks usage f s h0]
    simp
  · rw [hchain]
    simp [resetChatHistory, appendMessage]
  · rw [hchain]
    have hreset : (resetChatHistory (asyncGenerate (GenOutcome.ok chunks usage f) s)).messageLog
        = ((asyncGenerate (GenOutcome.ok chunks usage f) s).messageLog).filter
              (fun e => !(clearTags.contains e.kind))
            ++ [⟨"info", "Chat assistant is ready"⟩] := by
      simp [resetChatHistory, appendMessage]
    rw [hreset, asyncGenerate_messageLog_ok chunks usage f s h0,
      filter_updateLastOfKind (fun e => !(clearTags.contains e.kind)) "secondary" f false
        (fun t => rfl),
      filter_streamLog (fun e => !(clearTags.contains e.kind)) (fun t => rfl) chunks]
    have h1 : List.filter (fun e => !(clearTags.contains e.kind))
        [(⟨"primary", s.inputValue⟩ : LogEntry), ⟨"secondary", "... thinking ..."⟩] = [] := rfl
    rw [List.filter_append, h1, List.append_nil]

/-- Witness for claim C7 at a concrete ready state. -/
theorem reset_after_generation_witness :
    readyState.inputValue ≠ "" ∧
    ((runChain [genTask (GenOutcome.ok ["a"] none "ans"), resetTask] readyState).1
        = resetChatHistory (asyncGenerate (GenOutcome.ok ["a"] none "ans") readyState)
    ∧ (asyncGenerate (GenOutcome.ok ["a"] none "ans") readyState).chatHistory.getLast?
        = some ⟨Role.assistant, "ans"⟩
    ∧ ((runChain [genTask (GenOutcome.ok ["a"] none "ans"), resetTask] readyState).1).chatHistory
        = []
    ∧ ((runChain [genTask (GenOutcome.ok ["a"] none "ans"), resetTask] readyState).1).messageLog
        = readyState.messageLog.filter (fun e => !(clearTags.contains e.kind))
            ++ [⟨"info", "Chat assistant is ready"⟩]) :=
  ⟨by decide, reset_after_generation ["a"] none "ans" readyState (by decide)⟩

/-- Witness for claim C8 at a concrete ready state. -/
theorem generation_error_unloads_engine_witness :
    readyState.inputValue ≠ "" ∧
    ((asyncGenerate (GenOutcome.error ["pa"] "boom") readyState).chatLoaded = false
      ∧ (asyncGenerate (GenOutcome.error ["pa"] "boom") readyState).requestInProgress = false
      ∧ ∃ pre : List LogEntry,
          (asyncGenerate (GenOutcome.error ["pa"] "boom") readyState).messageLog
            = pre ++ [⟨"danger", "Generate error, " ++ "boom"⟩,
                ⟨"info", "Engine unloaded. You can download models again and retry."⟩]) :=
  ⟨by decide, generation_error_unloads_engine ["pa"] "boom" readyState (by decide)⟩

end WebLLMChat
